import Mathlib

/-!
# Verification of the `onlyargs` derive-macro argument parser

A shallow embedding of `onlyargs_derive/src/lib.rs`: the name-derivation
rules (`to_arg_name`), the short-name deduplication pass (`dedupe`), the
help-text layout (`get_max_width`, `to_help`), and the runtime token scan
that the macro generates (`scan`, `parse`).  Parts of the repository that
are not in `src/` (the `parser` module's descriptor types and the
`onlyargs` runtime crate's coercion extensions) are modelled from the
specification; each such definition says so in its doc comment.
-/

set_option autoImplicit false

namespace OnlyArgs

/-! ## Name derivation (`to_arg_name`, lib.rs lines 306-311) -/

/-- One step of Rust's `str::replace('_', "-")`: underscores become hyphens. -/
def replaceUnderscore (c : Char) : Char :=
  if c = '_' then '-' else c

/-- Rust's `make_ascii_lowercase` on a single character: code points 65-90
(`A`-`Z`) are shifted by 32; everything else is untouched. -/
def asciiLower (c : Char) : Char :=
  if h : 65 ≤ c.toNat ∧ c.toNat ≤ 90 then
    Char.ofNatAux (c.toNat + 32) (Or.inl (by omega))
  else c

/-- Is `c` an ASCII uppercase letter (`A`-`Z`)? -/
def isAsciiUpper (c : Char) : Bool :=
  65 ≤ c.toNat && c.toNat ≤ 90

/-- `to_arg_name` from lib.rs: replace `_` with `-`, then ASCII-lowercase. -/
def to_arg_name (ident : String) : String :=
  String.mk ((ident.data.map replaceUnderscore).map asciiLower)

/-- The long form of an argument, `format!("--{}", to_arg_name(name))`
as used at lib.rs lines 169, 184 and 231. -/
def mkLong (name : String) : String :=
  String.mk ('-' :: '-' :: (to_arg_name name).data)

/-- The short form of an argument, `format!("-{ch}")` (lib.rs lines 166, 181). -/
def mkShort (ch : Char) : String :=
  String.mk ['-', ch]

/-! ## Tokens and values -/

/-- Modelled from the spec: a platform string (`OsString`) at the level of
its contract with the core — a raw token either is valid UTF-8 (and then
carries its decoding) or it is not. -/
inductive OsStr where
  | utf8 (s : String)
  | nonUnicode (bytes : List Nat)
  deriving DecidableEq, Repr

/-- `OsStr::to_str`: the UTF-8 decoding of a raw token, when it has one. -/
def OsStr.to_str : OsStr → Option String
  | .utf8 s => some s
  | .nonUnicode _ => none

/-- `ArgType` from the (missing) `parser` module, as used by lib.rs:
the classification of a field's element type that picks the coercion. -/
inductive ArgType where
  | Bool
  | Number
  | OsString
  | Path
  | String
  deriving DecidableEq, Repr

/-- Alias for `String` usable inside the `ArgType` namespace, where the
bare name `String` would refer to the constructor `ArgType.String`. -/
abbrev Str : Type := String

/-- Modelled from the spec: the type-hint strings of the missing
`ArgType::as_str`.  The spec's illustrative help text (section 6) shows a
leading space and an angle-bracketed hint (` <str>`, ` <path>`) for options
and nothing for flags; the remaining hints are chosen in the same style. -/
def ArgType.as_str : ArgType → Str
  | .Bool => ""
  | .Number => " <int>"
  | .OsString => " <os>"
  | .Path => " <path>"
  | .String => " <str>"

/-- A parsed argument value. -/
inductive Value where
  | int (n : Int)
  | str (s : String)
  | os (o : OsStr)
  | path (p : OsStr)
  deriving DecidableEq, Repr

/-- The runtime error taxonomy.  `Unknown` is the constructor named in
lib.rs line 285 (`CliError::Unknown(arg)`); the other three are modelled
from the spec's section 7 error taxonomy (the `CliError` type itself lives
in the `onlyargs` runtime crate, which is not in `src/`). -/
inductive CliError where
  | Unknown (arg : OsStr)
  | InvalidValue (name : String) (token : OsStr)
  | MissingRequiredArgument (name : String)
  | MissingOptionValue (name : String)
  deriving DecidableEq, Repr

/-! ## Integer parsing (contract of the runtime's `parse_int`) -/

/-- The numeric value of a nonempty all-digit character sequence. -/
def digitsVal : List Char → Option Nat
  | [] => none
  | cs =>
    if cs.all Char.isDigit then
      some (cs.foldl (fun a c => a * 10 + (c.toNat - 48)) 0)
    else none

/-- Modelled from the spec: "parse using the language's native numeric
parser" — Rust's `FromStr` for integers accepts an optional `+`/`-` sign
followed by one or more ASCII digits and nothing else.  Width and overflow
are outside the contract the claims exercise and are not modelled. -/
def parseInt (s : String) : Option Int :=
  match s.data with
  | '-' :: rest => (digitsVal rest).map (fun n => -(n : Int))
  | '+' :: rest => (digitsVal rest).map (fun n => (n : Int))
  | ds => (digitsVal ds).map (fun n => (n : Int))

/-! ## Field descriptors (the `parser` module's types, as used by lib.rs) -/

/-- A flag descriptor (`ArgFlag`): shape determined by its uses in lib.rs
(`flag.name`, `flag.short`, `flag.doc`, `flag.output`). -/
structure ArgFlag where
  name : String
  short : Option Char
  doc : List String
  output : Bool
  deriving DecidableEq, Repr

/-- An option / positional descriptor (`ArgOption`): shape determined by
its uses in lib.rs (`opt.name`, `opt.short`, `opt.doc`, `opt.ty_help`,
`opt.optional`). -/
structure ArgOption where
  name : String
  short : Option Char
  doc : List String
  ty_help : ArgType
  optional : Bool
  deriving DecidableEq, Repr

/-- `ArgView`: the uniform view of an argument used by `dedupe`,
`get_max_width` and `to_help`. -/
structure ArgView where
  name : String
  short : Option Char
  doc : List String
  ty_help : ArgType
  deriving DecidableEq, Repr

/-- `ArgFlag::as_view`; a flag's element type is `bool`. -/
def ArgFlag.as_view (f : ArgFlag) : ArgView :=
  ⟨f.name, f.short, f.doc, ArgType.Bool⟩

/-- `ArgOption::as_view`. -/
def ArgOption.as_view (o : ArgOption) : ArgView :=
  ⟨o.name, o.short, o.doc, o.ty_help⟩

/-- The parsed `ArgumentStruct`: the user's flags, options and the at most
one positional field. -/
structure ArgumentStruct where
  flags : List ArgFlag
  options : List ArgOption
  positional : Option ArgOption
  deriving DecidableEq, Repr

/-- The built-in `help` flag pushed first by `derive_parser` (lib.rs 95-100). -/
def helpFlag : ArgFlag :=
  ⟨"help", some 'h', ["Show this help message."], false⟩

/-- The built-in `version` flag pushed second by `derive_parser` (lib.rs 101-106). -/
def versionFlag : ArgFlag :=
  ⟨"version", some 'V', ["Show the application version."], false⟩

/-! ## Value coercion (contract of the runtime's `parse_*` extensions)

The extension methods `parse_int`, `parse_str`, `parse_osstr` and
`parse_path` live in the `onlyargs` runtime crate, which is not in `src/`;
`coerceOs` is modelled from the spec's coercion contract (section 4.2):
numeric and UTF-8 string coercion can fail with `InvalidValue` carrying the
argument name and the raw token, platform-string and path coercion never
fail.  The `Bool` case is `unreachable!()` in lib.rs (lines 186, 203):
options and positionals never have flag type. -/

/-- Dispatch a raw token to the coercion for `ty`, as the generated code's
`parse_int` / `parse_str` / `parse_osstr` / `parse_path` calls do. -/
def coerceOs (ty : ArgType) (name : String) (arg : OsStr) : Except CliError Value :=
  match ty with
  | .Bool => .error (.Unknown arg)
  | .Number =>
    match arg.to_str with
    | some s =>
      match parseInt s with
      | some n => .ok (.int n)
      | none => .error (.InvalidValue name arg)
    | none => .error (.InvalidValue name arg)
  | .String =>
    match arg.to_str with
    | some s => .ok (.str s)
    | none => .error (.InvalidValue name arg)
  | .OsString => .ok (.os arg)
  | .Path => .ok (.path arg)

/-- The pseudo argument name used for positional coercion errors
(lib.rs lines 204-207). -/
def posName : String := "<POSITIONAL>"

/-! ## The generated runtime scan (lib.rs lines 269-294) -/

/-- The mutable parser state of the generated `parse` function: one boolean
per output flag, one `Option` per option, and the positional sink. -/
structure ScanState where
  flags : List (String × Bool)
  opts : List (String × Option Value)
  pos : List Value
  deriving DecidableEq, Repr

/-- The initial state: every output flag `false` (lib.rs 143-148), every
option `None` (149-152), the positional sink empty (153-159). -/
def initState (ast : ArgumentStruct) : ScanState :=
  ⟨ast.flags.filterMap (fun f => if f.output then some (f.name, false) else none),
   ast.options.map (fun o => (o.name, (none : Option Value))),
   []⟩

/-- `#name = true;` for the matched flag. -/
def setFlag (st : ScanState) (n : String) : ScanState :=
  { st with flags := st.flags.map (fun p => if p.1 = n then (n, true) else p) }

/-- `#name = Some(value);` for the matched option. -/
def setOpt (st : ScanState) (n : String) (v : Value) : ScanState :=
  { st with opts := st.opts.map (fun p => if p.1 = n then (n, some v) else p) }

/-- Does token `s` hit one of a flag's generated match patterns
`Some("--long") | Some("-c")` (lib.rs 162-177)? -/
def flagPat (f : ArgFlag) (s : String) : Bool :=
  s = mkLong f.name ||
    (match f.short with
     | some c => s = mkShort c
     | none => false)

/-- Does token `s` hit one of an option's generated match patterns
`Some(name @ "--long") | Some(name @ "-c")` (lib.rs 178-198)? -/
def optPat (o : ArgOption) (s : String) : Bool :=
  s = mkLong o.name ||
    (match o.short with
     | some c => s = mkShort c
     | none => false)

/-- The first flag whose generated match arm the token hits.  Only flags
with `output` set produce arms (`flags_matchers` filters on `flag.output`),
and arms are tried in declaration order. -/
def findFlag (fs : List ArgFlag) (s : String) : Option ArgFlag :=
  fs.find? (fun f => f.output && flagPat f s)

/-- The first option whose generated match arm the token hits. -/
def findOption (os : List ArgOption) (s : String) : Option ArgOption :=
  os.find? (fun o => optPat o s)

/-- The outcome of the generated `parse`: a populated state, one of the two
early-exit side effects (spec section 9 models `Self::help()` /
`Self::version()` as distinct terminal outcomes), or a `CliError`. -/
inductive ParseResult where
  | done (st : ScanState)
  | help
  | version
  | err (e : CliError)
  deriving DecidableEq, Repr

/-- The post-sentinel loop `for arg in args { #name.push(#value); }`
(lib.rs 210-216): coerce every remaining raw token in order, appending to
the positional sink; a coercion failure aborts via `?`. -/
def pushAll (ty : ArgType) (acc : List Value) : List OsStr → Except CliError (List Value)
  | [] => .ok acc
  | a :: rest =>
    match coerceOs ty posName a with
    | .error e => .error e
    | .ok v => pushAll ty (acc ++ [v]) rest

/-- The generated `while let Some(arg) = args.next()` loop (lib.rs 277-287).
Each token is dispatched on its UTF-8 decoding `arg.to_str()` through the
generated match arms, in their order of appearance: the hardcoded
`--help`/`-h` and `--version`/`-V` arms, the flag arms, the option arms
(which consume the following token as the value), the positional arms
(`Some("--")` and `Some(_)` when a positional field exists, `Some("--")`
alone otherwise), and the catch-all `_ => Err(CliError::Unknown(arg))`. -/
def scan (ast : ArgumentStruct) : ScanState → List OsStr → ParseResult
  | st, [] => .done st
  | st, arg :: rest =>
    match arg.to_str with
    | some s =>
      if s = "--help" || s = "-h" then .help
      else if s = "--version" || s = "-V" then .version
      else
        match findFlag ast.flags s with
        | some f => scan ast (setFlag st f.name) rest
        | none =>
          match findOption ast.options s with
          | some o =>
            match rest with
            | [] => .err (.MissingOptionValue s)
            | v :: rest2 =>
              match coerceOs o.ty_help s v with
              | .error e => .err e
              | .ok val => scan ast (setOpt st o.name val) rest2
          | none =>
            match ast.positional with
            | some p =>
              if s = "--" then
                match pushAll p.ty_help st.pos rest with
                | .error e => .err e
                | .ok ps => .done { st with pos := ps }
              else
                match coerceOs p.ty_help posName arg with
                | .error e => .err e
                | .ok v => scan ast { st with pos := st.pos ++ [v] } rest
            | none =>
              if s = "--" then .done st
              else .err (.Unknown arg)
    | none => .err (.Unknown arg)

/-- The required-option checks of the generated record constructor
(lib.rs 229-237): every option without `optional` must hold a value, else
`#name.required("--long")?` fails.  The `required` extension lives in the
`onlyargs` runtime crate and is modelled from the spec: absence produces
`MissingRequiredArgument` carrying the name it was given — the long form
`format!("--{}", to_arg_name(name))` built at lib.rs line 231. -/
def checkRequired (st : ScanState) : List ArgOption → Option CliError
  | [] => none
  | o :: os =>
    if o.optional then checkRequired st os
    else
      match List.lookup o.name st.opts with
      | some (some _) => checkRequired st os
      | _ => some (.MissingRequiredArgument (mkLong o.name))

/-- The full generated `fn parse`: run the scan from the initial state,
then perform the required-option finalization. -/
def parse (ast : ArgumentStruct) (args : List OsStr) : ParseResult :=
  match scan ast (initState ast) args with
  | .done st =>
    match checkRequired st ast.options with
    | some e => .err e
    | none => .done st
  | r => r

/-! ## Short-name deduplication (lib.rs lines 110-121 and 339-352) -/

/-- The dedup mapping from short character to owning identifier
(the `HashMap<char, &Ident>` of lib.rs line 111, modelled as an
association list; `dedupe` only inserts absent keys). -/
abbrev DupeMap : Type := List (Char × String)

/-- The compile-time error produced by `dedupe`:
`syn::Error::new(arg.name.span(), msg)` — the span names the current
identifier and the message names the short character and the prior owner. -/
structure DedupError where
  ident : String
  msg : String
  deriving DecidableEq, Repr

/-- The message `format!` of lib.rs lines 342-343. -/
def dedupeMsg (ch : Char) (other : String) : String :=
  "Only one short arg is allowed. `-" ++ String.mk [ch] ++
    "` also used on field `" ++ other ++ "`"

/-- Build the `dedupe` error for current identifier, short char, prior owner. -/
def dedupeErr (current : String) (ch : Char) (other : String) : DedupError :=
  ⟨current, dedupeMsg ch other⟩

/-- `dedupe` from lib.rs lines 339-352: arguments without a short name are
skipped; a short already present in the map is a hard error naming the
current identifier and the prior owner; otherwise the short is claimed. -/
def dedupe (dupes : DupeMap) (arg : ArgView) : Except DedupError DupeMap :=
  match arg.short with
  | none => .ok dupes
  | some ch =>
    match List.lookup ch dupes with
    | some other => .error (dedupeErr arg.name ch other)
    | none => .ok ((ch, arg.name) :: dupes)

/-- Fold `dedupe` over a list of argument views, aborting at the first
collision (the two `for` loops of lib.rs lines 112-121). -/
def dedupePass (m : DupeMap) : List ArgView → Except DedupError DupeMap
  | [] => .ok m
  | v :: vs =>
    match dedupe m v with
    | .error e => .error e
    | .ok m2 => dedupePass m2 vs

/-- The whole dedup pass of `derive_parser`: the built-in `help` and
`version` flags are pushed in front of the user flags (lib.rs 94-108), then
all flags are deduped in order, then all options (lib.rs 110-121). -/
def dedupeStruct (ast : ArgumentStruct) : Except DedupError DupeMap :=
  dedupePass []
    ((helpFlag :: versionFlag :: ast.flags).map ArgFlag.as_view ++
      ast.options.map ArgOption.as_view)

/-! ## Help layout (lib.rs lines 301-337) -/

/-- `SHORT_PAD`: 1 hyphen + 1 char + 1 trailing space (lib.rs 302). -/
def SHORT_PAD : Nat := 3

/-- `LONG_PAD`: 2 leading spaces + 2 hyphens + 2 trailing spaces (lib.rs 304). -/
def LONG_PAD : Nat := 6

/-- `" ".repeat(n)`. -/
def spaces (n : Nat) : String :=
  String.mk (List.replicate n ' ')

/-- Rust's `format!("{s:<w$}")`: right-pad `s` with spaces to width `w`
(no truncation when `s` is already wider).  The natural-number subtraction
matches the in-range uses of lib.rs, where the pad width never underflows. -/
def padRight (s : String) (w : Nat) : String :=
  s ++ spaces (w - s.length)

/-- `get_max_width` from lib.rs lines 328-337: the fold of
`name.len() + ty_help.as_str().len() + (SHORT_PAD if short else 0)`. -/
def get_max_width (views : List ArgView) : Nat :=
  views.foldl
    (fun acc view =>
      max acc
        (view.name.length + view.ty_help.as_str.length +
          (match view.short with
           | some _ => SHORT_PAD
           | none => 0)))
    0

/-- `to_help` from lib.rs lines 313-326: one rendered help entry.  With a
short name: `"  -{ch} --{name}{ty:<width$}  {help}\n"` where
`width = max_width - SHORT_PAD - name.len()`; without:
`"  --{name}{ty:<max_width$}  {help}\n"`.  Documentation lines are joined
with a newline followed by `max_width + LONG_PAD` spaces. -/
def to_help (arg : ArgView) (max_width : Nat) : String :=
  let name := to_arg_name arg.name
  let ty := arg.ty_help.as_str
  let pad := spaces (max_width + LONG_PAD)
  let help := String.intercalate ("\n" ++ pad) arg.doc
  match arg.short with
  | some ch =>
    "  -" ++ String.mk [ch] ++ " --" ++ name ++
      padRight ty (max_width - SHORT_PAD - name.length) ++ "  " ++ help ++ "\n"
  | none =>
    "  --" ++ name ++ padRight ty max_width ++ "  " ++ help ++ "\n"

/-! ## Concrete schemas used by the claims -/

/-- The `username: String` field of the example schema: a required
UTF-8 string option, derived short `-u`. -/
def usernameOpt : ArgOption :=
  ⟨"username", some 'u', ["Your username. [required]"], ArgType.String, false⟩

/-- The `verbose: bool` field of the example schema: a flag, derived
short `-v`. -/
def verboseFlag : ArgFlag :=
  ⟨"verbose", some 'v', ["Enable verbose output."], true⟩

/-- Schema with one required string option `username` and one boolean flag
`verbose`, no positional field. -/
def planA : ArgumentStruct :=
  ⟨[verboseFlag], [usernameOpt], none⟩

/-- A flag `force` (short `-f`) for the positional-schema tests. -/
def forceFlag : ArgFlag :=
  ⟨"force", some 'f', ["Force."], true⟩

/-- A positional field of integer element type. -/
def numbersPos : ArgOption :=
  ⟨"numbers", none, ["A list of numbers to sum."], ArgType.Number, true⟩

/-- Schema with a flag and an integer positional sequence field. -/
def planB : ArgumentStruct :=
  ⟨[forceFlag], [], some numbersPos⟩

/-- A required integer option `count` (short `-c`). -/
def countOpt : ArgOption :=
  ⟨"count", some 'c', ["How many."], ArgType.Number, false⟩

/-- Schema with a single integer option. -/
def planD : ArgumentStruct :=
  ⟨[], [countOpt], none⟩

/-- A positional field of filesystem-path element type. -/
def filesPos : ArgOption :=
  ⟨"files", none, ["Files to read."], ArgType.Path, true⟩

/-- Schema whose positional field holds paths. -/
def planE : ArgumentStruct :=
  ⟨[], [], some filesPos⟩

/-- A positional field of platform-string element type. -/
def namesPos : ArgOption :=
  ⟨"names", none, ["Raw names."], ArgType.OsString, true⟩

/-- Schema whose positional field holds platform strings. -/
def planF : ArgumentStruct :=
  ⟨[], [], some namesPos⟩

/-- Shorthand for a UTF-8 token. -/
def tok (s : String) : OsStr := OsStr.utf8 s

/-- A raw token that is not valid UTF-8. -/
def badTok : OsStr := OsStr.nonUnicode [255]

/-! ## Lemmas on name normalization -/

/-- The per-character normalization performed by `to_arg_name`: underscore
replacement followed by ASCII lowercasing. -/
def normChar (c : Char) : Char :=
  asciiLower (replaceUnderscore c)

theorem to_arg_name_data (s : String) :
    (to_arg_name s).data = s.data.map normChar := by
  show (s.data.map replaceUnderscore).map asciiLower = s.data.map normChar
  rw [List.map_map]
  rfl

theorem toNat_asciiLower (c : Char) (h : 65 ≤ c.toNat ∧ c.toNat ≤ 90) :
    (asciiLower c).toNat = c.toNat + 32 := by
  unfold asciiLower
  rw [dif_pos h]
  rfl

theorem asciiLower_eq_self (c : Char) (h : ¬(65 ≤ c.toNat ∧ c.toNat ≤ 90)) :
    asciiLower c = c := by
  unfold asciiLower
  rw [dif_neg h]

theorem isAsciiUpper_normChar (c : Char) : isAsciiUpper (normChar c) = false := by
  unfold normChar
  by_cases h : 65 ≤ (replaceUnderscore c).toNat ∧ (replaceUnderscore c).toNat ≤ 90
  · have ht := toNat_asciiLower _ h
    unfold isAsciiUpper
    rw [ht]
    simp
    omega
  · rw [asciiLower_eq_self _ h]
    unfold isAsciiUpper
    simp
    omega

theorem normChar_ne_underscore (c : Char) : normChar c ≠ '_' := by
  unfold normChar
  by_cases hc : c = '_'
  · subst hc
    decide
  · have hrc : replaceUnderscore c = c := by
      unfold replaceUnderscore
      rw [if_neg hc]
    rw [hrc]
    by_cases h : 65 ≤ c.toNat ∧ c.toNat ≤ 90
    · intro heq
      have hn := congrArg Char.toNat heq
      rw [toNat_asciiLower c h] at hn
      have h95 : ('_' : Char).toNat = 95 := rfl
      rw [h95] at hn
      omega
    · rw [asciiLower_eq_self c h]
      exact hc

theorem normChar_idem (c : Char) : normChar (normChar c) = normChar c := by
  have h1 : replaceUnderscore (normChar c) = normChar c := by
    unfold replaceUnderscore
    rw [if_neg (normChar_ne_underscore c)]
  have h3 : ¬(65 ≤ (normChar c).toNat ∧ (normChar c).toNat ≤ 90) := by
    intro hcontra
    have h2 := isAsciiUpper_normChar c
    unfold isAsciiUpper at h2
    simp at h2
    omega
  show asciiLower (replaceUnderscore (normChar c)) = normChar c
  rw [h1, asciiLower_eq_self _ h3]

/-- C8: Long-name derivation is a total, idempotent function of the
identifier: for every identifier the derived long name starts with `--`,
contains no underscore and no uppercase ASCII letter, and applying the
derivation's normalization (`to_arg_name`) to an already-derived name
leaves it unchanged. -/
theorem long_name_derivation_total_idempotent (ident : String) :
    (mkLong ident).data.take 2 = ['-', '-'] ∧
    (∀ c ∈ (mkLong ident).data, c ≠ '_' ∧ isAsciiUpper c = false) ∧
    to_arg_name (mkLong ident) = mkLong ident := by
  refine ⟨rfl, ?_, ?_⟩
  · intro c hc
    have hdata : (mkLong ident).data = '-' :: '-' :: (to_arg_name ident).data := rfl
    rw [hdata, to_arg_name_data] at hc
    simp only [List.mem_cons] at hc
    rcases hc with rfl | rfl | hc
    · exact ⟨by decide, by decide⟩
    · exact ⟨by decide, by decide⟩
    · obtain ⟨a, _, rfl⟩ := List.mem_map.mp hc
      exact ⟨normChar_ne_underscore a, isAsciiUpper_normChar a⟩
  · apply String.ext
    rw [to_arg_name_data]
    show ('-' :: '-' :: (to_arg_name ident).data).map normChar =
      '-' :: '-' :: (to_arg_name ident).data
    rw [List.map_cons, List.map_cons, to_arg_name_data, List.map_map]
    have hdash : normChar '-' = '-' := by decide
    rw [hdash]
    have hcomp : normChar ∘ normChar = normChar := funext normChar_idem
    rw [hcomp]

/-! ## Lemmas on the dedup pass -/

/-- The dedup map after the two built-in flags have claimed `-h` and `-V`. -/
def builtinDupes : DupeMap := [('V', "version"), ('h', "help")]

theorem dedupePass_append (xs ys : List ArgView) :
    ∀ m : DupeMap, dedupePass m (xs ++ ys) =
      match dedupePass m xs with
      | .ok m2 => dedupePass m2 ys
      | .error e => .error e := by
  induction xs with
  | nil => intro m; rfl
  | cons v xs ih =>
    intro m
    cases hd : dedupe m v with
    | error e => simp [dedupePass, hd]
    | ok m2 => simp [dedupePass, hd, ih m2]

theorem lookup_of_dedupePass_ok (c : Char) (o : String) (vs : List ArgView) :
    ∀ m m2 : DupeMap, dedupePass m vs = .ok m2 →
      List.lookup c m = some o → List.lookup c m2 = some o := by
  induction vs with
  | nil =>
    intro m m2 hok hl
    simp [dedupePass] at hok
    rw [← hok]
    exact hl
  | cons v vs ih =>
    intro m m2 hok hl
    cases hsh : v.short with
    | none =>
      have hstep : dedupePass m (v :: vs) = dedupePass m vs := by
        simp [dedupePass, dedupe, hsh]
      exact ih m m2 (hstep ▸ hok) hl
    | some ch =>
      cases hlk : List.lookup ch m with
      | some other =>
        have hstep : dedupePass m (v :: vs) = .error (dedupeErr v.name ch other) := by
          simp [dedupePass, dedupe, hsh, hlk]
        rw [hstep] at hok
        cases hok
      | none =>
        have hne : (c == ch) = false := by
          simp only [beq_eq_false_iff_ne, ne_eq]
          intro heq
          rw [heq, hlk] at hl
          cases hl
        have hstep : dedupePass m (v :: vs) = dedupePass ((ch, v.name) :: m) vs := by
          simp [dedupePass, dedupe, hsh, hlk]
        have hl2 : List.lookup c ((ch, v.name) :: m) = some o := by
          simp [List.lookup, hne]
          exact hl
        exact ih _ m2 (hstep ▸ hok) hl2

/-- C5: Short-name deduplication iterates the built-in `help`/`version`
flags before all user descriptors and fails on the second argument that
resolves to an already-claimed short character, with an error naming the
current identifier (in its span) and the prior owner (in its message): for
any user flag list that itself passes the dedup pass, appending a user
field that resolves to short `-h` makes the pass fail naming that field
and `help` as the prior owner. -/
theorem dedupe_user_h_collides_with_builtin_help (fs : List ArgFlag) (f : ArgFlag)
    (hok : ∃ m, dedupeStruct ⟨fs, [], none⟩ = .ok m)
    (hsh : f.short = some 'h') :
    dedupeStruct ⟨fs ++ [f], [], none⟩ = .error (dedupeErr f.name 'h' "help") := by
  obtain ⟨m, hm⟩ := hok
  have hS : dedupeStruct ⟨fs, [], none⟩ = dedupePass builtinDupes (fs.map ArgFlag.as_view) := by
    have h0 : dedupeStruct ⟨fs, [], none⟩ =
        dedupePass [] ((helpFlag :: versionFlag :: fs).map ArgFlag.as_view ++ []) := rfl
    rw [h0, List.append_nil]
    rfl
  rw [hS] at hm
  have hlook : List.lookup 'h' m = some "help" :=
    lookup_of_dedupePass_ok 'h' "help" (fs.map ArgFlag.as_view) builtinDupes m hm rfl
  have hT : dedupeStruct ⟨fs ++ [f], [], none⟩ =
      dedupePass builtinDupes (fs.map ArgFlag.as_view ++ [f.as_view]) := by
    have h0 : dedupeStruct ⟨fs ++ [f], [], none⟩ =
        dedupePass [] ((helpFlag :: versionFlag :: (fs ++ [f])).map ArgFlag.as_view ++ []) := rfl
    rw [h0, List.append_nil]
    show dedupePass builtinDupes ((fs ++ [f]).map ArgFlag.as_view) = _
    rw [List.map_append]
    rfl
  rw [hT, dedupePass_append, hm]
  show dedupePass m [f.as_view] = _
  have hfv : f.as_view.short = some 'h' := hsh
  simp [dedupePass, dedupe, hfv, hlook]
  rfl

/-- Witness for C5: with no other user flags, a field `hostname` that
resolves to short `-h` fails the dedup pass naming `hostname` and the
built-in `help`. -/
theorem dedupe_user_h_collides_with_builtin_help_witness :
    dedupeStruct ⟨[⟨"hostname", some 'h', [], true⟩], [], none⟩ =
      .error (dedupeErr "hostname" 'h' "help") :=
  dedupe_user_h_collides_with_builtin_help [] ⟨"hostname", some 'h', [], true⟩
    ⟨builtinDupes, rfl⟩ rfl

/-! ## Runtime matcher claims -/

/-- C1: On the schema with required string option `username` and boolean
flag `verbose`, parsing `["--username", "alice", "--verbose"]` succeeds
with `username = "alice"`, `verbose = true` and an empty positional
sequence. -/
theorem roundtrip_username_verbose :
    parse planA [tok "--username", tok "alice", tok "--verbose"] =
      .done ⟨[("verbose", true)], [("username", some (Value.str "alice"))], []⟩ := by
  decide

/-- C2: On a schema whose positional field has integer element type, every
token after the `--` sentinel is coerced as a positional value and never
reinterpreted as a flag: `["--", "-5", "--not-a-flag"]` appends the integer
`-5` and then fails with `InvalidValue("<POSITIONAL>", "--not-a-flag")`;
even a token spelling an existing flag (`-f`) is coerced, not matched. -/
theorem sentinel_positional_coercion :
    parse planB [tok "--", tok "-5", tok "--not-a-flag"] =
      .err (.InvalidValue "<POSITIONAL>" (tok "--not-a-flag")) ∧
    pushAll ArgType.Number [] [tok "-5"] = .ok [Value.int (-5)] ∧
    parse planB [tok "--", tok "-f"] = .err (.InvalidValue "<POSITIONAL>" (tok "-f")) :=
  ⟨by decide, rfl, by decide⟩

/-- Counterexample to C3 as stated: parsing `[]` against the schema
requiring `username` yields `MissingRequiredArgument("--username")` — the
long form with its leading dashes — and not
`MissingRequiredArgument("username")`. -/
theorem missing_required_not_bare_name :
    parse planA [] = .err (.MissingRequiredArgument "--username") ∧
    parse planA [] ≠ .err (.MissingRequiredArgument "username") := by
  constructor
  · decide
  · decide

/-- C3 (amended): on the schema requiring `username`, every token sequence
whose scan completes with `username` never set makes finalization fail with
`MissingRequiredArgument` carrying the long form `--username`. -/
theorem scan_complete_missing_username (ts : List OsStr) (st : ScanState)
    (hscan : scan planA (initState planA) ts = .done st)
    (hunset : List.lookup "username" st.opts = some none) :
    parse planA ts = .err (.MissingRequiredArgument "--username") := by
  unfold parse
  rw [hscan]
  have hck : checkRequired st planA.options = some (.MissingRequiredArgument "--username") := by
    show checkRequired st [usernameOpt] = _
    unfold checkRequired
    rw [show usernameOpt.optional = false from rfl]
    simp only [Bool.false_eq_true, if_false]
    rw [show usernameOpt.name = "username" from rfl, hunset]
    rfl
  show (match checkRequired st planA.options with
    | some e => ParseResult.err e
    | none => ParseResult.done st) = ParseResult.err (CliError.MissingRequiredArgument "--username")
  rw [hck]

/-- Witness for C3 (amended): the empty token list completes the scan with
`username` unset, and finalization reports `--username`. -/
theorem scan_complete_missing_username_witness :
    parse planA [] = .err (.MissingRequiredArgument "--username") :=
  scan_complete_missing_username [] (initState planA) rfl rfl

/-- C6: A token matching an option's long or short form consumes the next
token as the option's value and coerces it to the declared element type;
coercion failure yields `InvalidValue` with the matched argument name and
the offending token, and an option token with no following token yields
`MissingOptionValue` with the matched argument name. -/
theorem option_consumes_next_token :
    (∀ rest : List OsStr,
      scan planD (initState planD) (tok "--count" :: tok "7" :: rest) =
        scan planD (setOpt (initState planD) "count" (Value.int 7)) rest) ∧
    parse planD [tok "--count", tok "7"] = .done ⟨[], [("count", some (Value.int 7))], []⟩ ∧
    parse planD [tok "--count", tok "xyz"] = .err (.InvalidValue "--count" (tok "xyz")) ∧
    parse planD [tok "-c", tok "xyz"] = .err (.InvalidValue "-c" (tok "xyz")) ∧
    parse planD [tok "--count"] = .err (.MissingOptionValue "--count") ∧
    parse planD [tok "-c"] = .err (.MissingOptionValue "-c") :=
  ⟨fun _ => rfl, by decide, by decide, by decide, by decide, by decide⟩

/-- C7: On a schema with no positional field, a token matching no flag and
no option halts the scan immediately with `Unknown` carrying that token —
whatever tokens follow — and `["--bogus"]` parses to
`Unknown("--bogus")`. -/
theorem unknown_token_halts :
    (∀ (st : ScanState) (rest : List OsStr),
      scan planA st (tok "--bogus" :: rest) = .err (.Unknown (tok "--bogus"))) ∧
    parse planA [tok "--bogus"] = .err (.Unknown (tok "--bogus")) :=
  ⟨fun _ _ => rfl, by decide⟩

/-- C9: On a schema with no positional field, the sentinel `--` stops the
scan: all remaining tokens, whatever their content (even non-UTF-8), are
discarded without an error and the parse proceeds directly to
required-field finalization. -/
theorem sentinel_without_positional_discards :
    (∀ (st : ScanState) (rest : List OsStr),
      scan planA st (tok "--" :: rest) = .done st) ∧
    (∀ rest : List OsStr,
      parse planA (tok "--" :: rest) = .err (.MissingRequiredArgument "--username")) ∧
    parse planA [tok "--username", tok "alice", tok "--", tok "--bogus", badTok] =
      .done ⟨[("verbose", false)], [("username", some (Value.str "alice"))], []⟩ :=
  ⟨fun _ _ => rfl, fun _ => rfl, by decide⟩

/-- C10: Token matching before the `--` sentinel is keyed on the token's
UTF-8 decoding — a non-UTF-8 raw token always yields `Unknown`, even when
the schema's positional field has path or platform-string type — whereas
the same token after `--` goes straight to positional coercion, which for
those types accepts it. -/
theorem non_utf8_token_dispatch :
    (∀ (st : ScanState) (rest : List OsStr),
      scan planE st (badTok :: rest) = .err (.Unknown badTok)) ∧
    (∀ (st : ScanState) (rest : List OsStr),
      scan planF st (badTok :: rest) = .err (.Unknown badTok)) ∧
    parse planE [tok "--", badTok] = .done ⟨[], [], [Value.path badTok]⟩ ∧
    parse planF [tok "--", badTok] = .done ⟨[], [], [Value.os badTok]⟩ :=
  ⟨fun _ _ => rfl, fun _ _ => rfl, by decide, by decide⟩

/-! ## Help layout claim -/

/-- A flag with a short name, for the help-alignment evaluation. -/
def alphaView : ArgView := ⟨"alpha", some 'a', ["Alpha."], ArgType.Bool⟩

/-- A flag without a short name, for the help-alignment evaluation. -/
def betaView : ArgView := ⟨"beta", none, ["Beta."], ArgType.Bool⟩

/-- C4 evaluation at the failing input: for the section
`[alpha (short -a), beta (no short)]` the alignment width is 8; the entry
with a short name starts its documentation at column `8 + 6 = 14`
(`"  -a --alpha  "`), but the entry without a short name pads its type
hint to the full width 8, so its documentation starts at column
`2 + 2 + 4 + 8 + 2 = 18` — not at column 14 as an aligned rendering
(`"  --beta      Beta.\n"`) would require. -/
theorem to_help_no_short_misaligned :
    get_max_width [alphaView, betaView] = 8 ∧
    to_help alphaView 8 = "  -a --alpha  Alpha.\n" ∧
    to_help betaView 8 = "  --beta          Beta.\n" ∧
    to_help betaView 8 ≠ "  --beta      Beta.\n" :=
  ⟨by decide, by decide, by decide, by decide⟩

end OnlyArgs
